import Mathlib

/-!
Verification of the `topspenders` transaction-aggregation pipeline
(`parse/parse.go`).

The Go code is shallowly embedded as follows:

* monetary values (`float64` in Go) are modelled as exact rationals `ℚ`;
  the arithmetic performed by the code (`+`, `*`) is modelled exactly;
* `time.Time` is modelled by the `Date` structure holding the parsed
  calendar fields (only year and month are consumed downstream);
* the CSV reader (`encoding/csv`) is modelled as the sequence of results
  its `Read` method yields: each item is either a record (a list of
  fields) or a non-EOF read failure; the end of the list models `io.EOF`;
* the producer goroutine plus channel of `newTxStream` is modelled as the
  list of items sent on the channel, in FIFO order (the spec's §5 strict
  FIFO guarantee makes this faithful);
* the `slog.Error` diagnostic side channel is modelled as an explicit
  list of diagnostic messages accumulated by the consumer;
* the output CSV writer is modelled by `RunResult.written`:
  `none` means the writer was never invoked (zero bytes written), while
  `some rows` means the fixed header row was written followed by exactly
  the data rows `rows` (each `OutputRow` carries the data of one written
  CSV record; string rendering of the amount column is abstracted, the
  exact rational value is kept).

Error values (`error` in Go) are modelled as strings; the exact message
texts of the Go `fmt.Errorf` formats are abbreviated to fixed tags.
-/

attribute [local semireducible] Rat.add Rat.mul Rat.sub Rat.inv Rat.ofScientific

namespace TopSpendersGo

/-- Transaction-type constant `txCardSpend = "CARD SPEND"` (parse.go:17). -/
def txCardSpend : String := "CARD SPEND"

/-- Transaction-type constant `txBuyGold = "BUY GOLD"` (parse.go:18). -/
def txBuyGold : String := "BUY GOLD"

/-- Transaction-type constant `txSellGold = "SELL GOLD"` (parse.go:19). -/
def txSellGold : String := "SELL GOLD"

/-- Currency constant `currencyGBP = "GBP"` (parse.go:21). -/
def currencyGBP : String := "GBP"

/-- Currency constant `currencyGGM = "GGM"` (parse.go:22). -/
def currencyGGM : String := "GGM"

/-- The message of Go's `io.EOF` error value. -/
def eofMsg : String := "EOF"

/-- Error tag for `decodeRecord`'s column-count failure (parse.go:251). -/
def columnCountMsg : String := "invalid number of columns"

/-- The message of `encoding/csv`'s `ErrFieldCount` error, returned by
`csvReader.Read` for a record whose field count differs from the one
locked in by the first record read (`FieldsPerRecord` is left at its
zero default by parse.go:203). -/
def errFieldCountMsg : String := "wrong number of fields"

/-- Error tag for a `strconv.ParseFloat` failure on the amount field. -/
def badAmountMsg : String := "invalid amount"

/-- Error tag for a `strconv.ParseFloat` failure on the rate field. -/
def badRateMsg : String := "invalid rate"

/-- Error tag for a `time.Parse` failure (parse.go:265). -/
def badTimeMsg : String := "invalid time format"

/-- Error tag for `validate`'s unknown transaction type (parse.go:44). -/
def badTypeMsg : String := "unknown transaction type"

/-- Error tag for `validate`'s unsupported currency (parse.go:50,56). -/
def badCurrencyMsg : String := "unsupported currency"

/-- The calendar fields of a parsed `time.Time` value.  The layout
`"02/01/2006 15:04"` (parse.go:15) carries day, month, year, hour and
minute; only `year` and `month` are consumed downstream (by `monthKey`). -/
structure Date where
  year : Nat
  month : Nat
  day : Nat
  hour : Nat
  minute : Nat
deriving DecidableEq, Repr

/-- The `Transaction` struct (parse.go:27-38). -/
structure Transaction where
  FirstName : String
  LastName : String
  Email : String
  TransactionType : String
  MerchantCode : String
  Amount : ℚ
  FromCurrency : String
  ToCurrency : String
  Rate : ℚ
  Date : Date
deriving DecidableEq, Repr

/-- `Transaction.validate` (parse.go:40-60): the transaction type must be
one of the three known constants and both currencies must be GBP or GGM. -/
def Transaction.validate (t : Transaction) : Except String Unit :=
  if t.TransactionType = txBuyGold ∨ t.TransactionType = txSellGold ∨
      t.TransactionType = txCardSpend then
    if t.FromCurrency = currencyGBP ∨ t.FromCurrency = currencyGGM then
      if t.ToCurrency = currencyGBP ∨ t.ToCurrency = currencyGGM then
        Except.ok ()
      else Except.error badCurrencyMsg
    else Except.error badCurrencyMsg
  else Except.error badTypeMsg

/-- The `UserMonthlySpending` struct (parse.go:62-68). -/
structure UserMonthlySpending where
  FirstName : String
  LastName : String
  Email : String
  TotalGBP : ℚ
  TransactionCount : Nat
deriving DecidableEq, Repr

/-- `UserMonthlySpending.update` (parse.go:70-81): add the GBP-converted
amount (identity for GBP, `amount * rate` for GGM) and bump the count. -/
def UserMonthlySpending.update (us : UserMonthlySpending)
    (tx : Transaction) : UserMonthlySpending :=
  let us1 :=
    if tx.FromCurrency = currencyGGM then
      { us with TotalGBP := us.TotalGBP + tx.Amount * tx.Rate }
    else us
  let us2 :=
    if tx.FromCurrency = currencyGBP then
      { us1 with TotalGBP := us1.TotalGBP + tx.Amount }
    else us1
  { us2 with TransactionCount := us2.TransactionCount + 1 }

/-- The `Config` struct (parse.go:83-85). -/
structure Config where
  StopOnError : Bool
deriving DecidableEq, Repr

/-- The `parsedTx` struct (parse.go:87-90): either a transaction or an
error, as sent over the producer's channel. -/
abbrev parsedTx := Except String Transaction

/-- One digit of a decimal string. -/
def digitVal (c : Char) : Nat := c.toNat - 48

/-- The natural number denoted by a digit string (most significant first). -/
def natOfDigits (cs : List Char) : Nat :=
  cs.foldl (fun n c => n * 10 + digitVal c) 0

/-- An unsigned decimal number: `digits`, `digits.digits`, `digits.` or
`.digits` (at least one digit overall).  Models the plain decimal forms
accepted by `strconv.ParseFloat` (exponents, hex, inf/NaN and digit
underscores are not exercised by this repository's data and are omitted). -/
def parseUnsigned (cs : List Char) : Option ℚ :=
  let intPart := cs.takeWhile Char.isDigit
  let rest := cs.dropWhile Char.isDigit
  match rest with
  | [] => if intPart.isEmpty then none else some (natOfDigits intPart : ℚ)
  | '.' :: frac =>
      if frac.all Char.isDigit ∧ ¬(intPart.isEmpty ∧ frac.isEmpty) then
        some ((natOfDigits intPart : ℚ) +
          (natOfDigits frac : ℚ) / ((10 : ℚ) ^ frac.length))
      else none
  | _ => none

/-- `strconv.ParseFloat` on the decimal forms used by the input data:
an optional sign followed by an unsigned decimal number.  Note that a
leading `-` is accepted — the sign of amounts and rates is not enforced
anywhere in the pipeline. -/
def parseFloat (s : String) : Option ℚ :=
  match s.data with
  | '-' :: rest => (parseUnsigned rest).map (fun q => -q)
  | '+' :: rest => parseUnsigned rest
  | cs => parseUnsigned cs

/-- Two-digit field of the fixed time layout. -/
def num2 (a b : Char) : Option Nat :=
  if a.isDigit ∧ b.isDigit then some (digitVal a * 10 + digitVal b) else none

/-- One-digit field of the fixed time layout. -/
def num1 (a : Char) : Option Nat :=
  if a.isDigit then some (digitVal a) else none

/-- Four-digit field of the fixed time layout. -/
def num4 (a b c d : Char) : Option Nat :=
  if a.isDigit ∧ b.isDigit ∧ c.isDigit ∧ d.isDigit then
    some (digitVal a * 1000 + digitVal b * 100 + digitVal c * 10 + digitVal d)
  else none

/-- Gregorian leap-year rule (as used by Go's `time` package). -/
def isLeap (y : Nat) : Bool :=
  (y % 4 == 0 && y % 100 != 0) || y % 400 == 0

/-- Number of days in a month (Go's `time` package validates the parsed
day of month against this). -/
def daysIn (y m : Nat) : Nat :=
  if m = 2 then (if isLeap y then 29 else 28)
  else if m = 4 ∨ m = 6 ∨ m = 9 ∨ m = 11 then 30
  else 31

/-- `time.Parse(timeLayout, s)` with the fixed layout `02/01/2006 15:04`
(parse.go:15, parse.go:263): `DD/MM/YYYY H:MM` with zero-padded two-digit
day, month and minute and a four-digit year (those layout elements are
fixed-width in Go's parser), an hour of one or two digits (the `15`
element accepts either), and the parsed fields within their calendar
ranges. -/
def parseTime (s : String) : Option Date :=
  match s.data with
  | [d1, d2, s1, m1, m2, s2, y1, y2, y3, y4, sp, h1, h2, co, n1, n2] =>
      if s1 = '/' ∧ s2 = '/' ∧ sp = ' ' ∧ co = ':' then
        match num2 d1 d2, num2 m1 m2, num4 y1 y2 y3 y4,
            num2 h1 h2, num2 n1 n2 with
        | some day, some month, some year, some hour, some minute =>
            if 1 ≤ month ∧ month ≤ 12 ∧ 1 ≤ day ∧ day ≤ daysIn year month ∧
                hour ≤ 23 ∧ minute ≤ 59 then
              some ⟨year, month, day, hour, minute⟩
            else none
        | _, _, _, _, _ => none
      else none
  | [d1, d2, s1, m1, m2, s2, y1, y2, y3, y4, sp, h1, co, n1, n2] =>
      if s1 = '/' ∧ s2 = '/' ∧ sp = ' ' ∧ co = ':' then
        match num2 d1 d2, num2 m1 m2, num4 y1 y2 y3 y4,
            num1 h1, num2 n1 n2 with
        | some day, some month, some year, some hour, some minute =>
            if 1 ≤ month ∧ month ≤ 12 ∧ 1 ≤ day ∧ day ≤ daysIn year month ∧
                hour ≤ 23 ∧ minute ≤ 59 then
              some ⟨year, month, day, hour, minute⟩
            else none
        | _, _, _, _, _ => none
      else none
  | _ => none

/-- `decodeRecord` (parse.go:249-280): reject records with fewer than 10
fields, parse amount (field 5), rate (field 8) and date (field 9), and
build the `Transaction` from the positional fields. -/
def decodeRecord (record : List String) : Except String Transaction :=
  if record.length < 10 then Except.error columnCountMsg
  else
    match parseFloat (record.getD 5 "") with
    | none => Except.error badAmountMsg
    | some amount =>
      match parseFloat (record.getD 8 "") with
      | none => Except.error badRateMsg
      | some rate =>
        match parseTime (record.getD 9 "") with
        | none => Except.error badTimeMsg
        | some date =>
            Except.ok
              { FirstName := record.getD 0 ""
                LastName := record.getD 1 ""
                Email := record.getD 2 ""
                TransactionType := record.getD 3 ""
                MerchantCode := record.getD 4 ""
                Amount := amount
                FromCurrency := record.getD 6 ""
                ToCurrency := record.getD 7 ""
                Rate := rate
                Date := date }

/-- One raw item of the input byte stream, before the csv layer's
field-count check: a record's fields, or a low-level (I/O) read failure.
`io.EOF` (normal exhaustion) is modelled by the end of the event list.
The `FieldsPerRecord` check that `encoding/csv` performs inside
`csvReader.Read` — the expected count is locked in by the first record
read and any later record with a different count returns the terminal
`ErrFieldCount` — is modelled where the reads happen, in `newTxStream`
and `txLoop`. -/
inductive ReadEvent where
  | record (fields : List String)
  | readFail (msg : String)
deriving DecidableEq, Repr

/-- The item the producer sends for one data row (parse.go:228-242):
decode, then validate; the first failure is sent as an error result,
otherwise the transaction is sent. -/
def rowResult (r : List String) : parsedTx :=
  match decodeRecord r with
  | Except.error e => Except.error e
  | Except.ok tx =>
    match tx.validate with
    | Except.error e => Except.error e
    | Except.ok _ => Except.ok tx

/-- The producer's read loop (parse.go:216-243) over `csvReader.Read`
results, with `n` the field count locked in by the header read
(`FieldsPerRecord`): a record with a different field count makes `Read`
return the non-EOF `ErrFieldCount` error, which — like a low-level read
failure — yields one error result and stops the loop (channel closed,
parse.go:217-226); a record with the locked field count yields its
`rowResult` and the loop continues; the end of the input (io.EOF) stops
the loop with nothing emitted. -/
def txLoop (n : Nat) : List ReadEvent → List parsedTx
  | [] => []
  | ReadEvent.readFail e :: _ => [Except.error e]
  | ReadEvent.record r :: rest =>
      if r.length ≠ n then [Except.error errFieldCountMsg]
      else rowResult r :: txLoop n rest

/-- `newTxStream` (parse.go:202-247): read and discard the header row
first; if reading the header fails (including with io.EOF on empty
input, modelled by the empty event list) a single error result is sent
and the stream closes; otherwise run the read loop over the remaining
events.  Reading the header is the reader's first `Read`, so it locks
`FieldsPerRecord` to the header's field count for the rest of the run.
The channel's contents are modelled as the produced list, in FIFO
order. -/
def newTxStream : List ReadEvent → List parsedTx
  | [] => [Except.error eofMsg]
  | ReadEvent.readFail e :: _ => [Except.error e]
  | ReadEvent.record h :: rest => txLoop h.length rest

/-- `monthKey` (parse.go:197-200): sortable integer key
`year*100 + month`. -/
def monthKey (date : Date) : Nat :=
  date.year * 100 + date.month

/-- The fresh aggregate created for a user's first qualifying transaction
in a month (parse.go:128-132): names and email captured, zero totals. -/
def initSpending (tx : Transaction) : UserMonthlySpending :=
  { FirstName := tx.FirstName
    LastName := tx.LastName
    Email := tx.Email
    TotalGBP := 0
    TransactionCount := 0 }

/-- The inner `map[string]*UserMonthlySpending` of one month, keyed by
email.  Go's map is modelled as an association list; a newly created
entry is appended at the end (Go's map iteration order is unspecified;
the claims do not depend on it — see the sort model below). -/
abbrev MonthMap := List (String × UserMonthlySpending)

/-- Applying one qualifying transaction to a month's map
(parse.go:126-135): update the user's aggregate in place, or append a
freshly initialised one. -/
def MonthMap.apply (m : MonthMap) (tx : Transaction) : MonthMap :=
  match m with
  | [] => [(tx.Email, (initSpending tx).update tx)]
  | (e, us) :: rest =>
      if e = tx.Email then (e, us.update tx) :: rest
      else (e, us) :: MonthMap.apply rest tx

/-- The outer `map[int]map[string]*UserMonthlySpending` (parse.go:98),
keyed by month key, modelled as an association list with new months
appended at the end. -/
abbrev MonthlySpendings := List (Nat × MonthMap)

/-- Applying one qualifying transaction to the two-level index
(parse.go:118-135): locate or create the month, then update the user. -/
def MonthlySpendings.apply (sp : MonthlySpendings)
    (tx : Transaction) : MonthlySpendings :=
  match sp with
  | [] => [(monthKey tx.Date, MonthMap.apply [] tx)]
  | (k, m) :: rest =>
      if k = monthKey tx.Date then (k, MonthMap.apply m tx) :: rest
      else (k, m) :: MonthlySpendings.apply rest tx

/-- The month keys present in the index. -/
def MonthlySpendings.keys (sp : MonthlySpendings) : List Nat :=
  sp.map Prod.fst

/-- `spendings[key]` (parse.go:160): the month map stored under a key
(the empty map if the key is absent). -/
def MonthlySpendings.monthOf (sp : MonthlySpendings) (k : Nat) : MonthMap :=
  match sp with
  | [] => []
  | (k2, m) :: rest =>
      if k2 = k then m else MonthlySpendings.monthOf rest k

/-- The state of the consumer loop of `TopSpenders` when it finishes:
the accumulated index, the diagnostics written to `slog.Error`, and the
terminal error returned from inside the loop (if any). -/
structure ConsumeOut where
  spendings : MonthlySpendings
  diags : List String
  err : Option String
deriving DecidableEq, Repr

/-- The consumer loop of `TopSpenders` (parse.go:102-136): for an error
result, return it if `StopOnError` is set, otherwise log it and
continue; for a transaction, skip it unless it is a CARD SPEND, else
apply it to the index. -/
def consume (cfg : Config) : List parsedTx → MonthlySpendings →
    List String → ConsumeOut
  | [], sp, diags => ⟨sp, diags, none⟩
  | Except.error e :: rest, sp, diags =>
      if cfg.StopOnError then ⟨sp, diags, some e⟩
      else consume cfg rest sp (diags ++ [e])
  | Except.ok tx :: rest, sp, diags =>
      if tx.TransactionType ≠ txCardSpend then consume cfg rest sp diags
      else consume cfg rest (sp.apply tx) diags

/-- Insertion of one element into a list sorted by the boolean relation
`le` (`le b a = true` means `b` may stay before `a`). -/
def insertBy (le : α → α → Bool) (a : α) : List α → List α
  | [] => [a]
  | b :: l => if le b a then b :: insertBy le a l else a :: b :: l

/-- Insertion sort by the boolean relation `le`.  This models Go's
`sort.Slice` / `sort.Ints`: any comparator-consistent permutation is
produced by the Go sort (it is not stable); this model fixes one such
permutation, which is sound for the verified properties (none depends
on the order of ties). -/
def sortBy (le : α → α → Bool) : List α → List α
  | [] => []
  | a :: l => insertBy le a (sortBy le l)

/-- Zero-padded two-digit rendering (the `01` month of Go's layout). -/
def pad2 (n : Nat) : String :=
  if n < 10 then "0" ++ toString n else toString n

/-- Zero-padded four-digit rendering (the `2006` year of Go's layout). -/
def pad4 (n : Nat) : String :=
  if n < 10 then "000" ++ toString n
  else if n < 100 then "00" ++ toString n
  else if n < 1000 then "0" ++ toString n
  else toString n

/-- `time.Date(key/100, key%100, 1, ...).Format("2006/01")`
(parse.go:177-179): the YYYY/MM date column rendered from a month key. -/
def formatYM (k : Nat) : String :=
  pad4 (k / 100) ++ "/" ++ pad2 (k % 100)

/-- The data of one output CSV record (parse.go:178-187).  `dateKey` is
the month key the `date` column is rendered from; `amountGBP` is the
exact value whose 7-decimal fixed-point rendering fills the amount
column (the rendering itself is abstracted); `currency` is the literal
"GBP" column. -/
structure OutputRow where
  date : String
  dateKey : Nat
  rank : Nat
  amountGBP : ℚ
  currency : String
  transactions : Nat
  email : String
  firstName : String
  lastName : String
deriving DecidableEq, Repr

/-- The output record for one ranked user (parse.go:174-187). -/
def mkRow (k : Nat) (rank : Nat) (u : UserMonthlySpending) : OutputRow :=
  { date := formatYM k
    dateKey := k
    rank := rank
    amountGBP := u.TotalGBP
    currency := "GBP"
    transactions := u.TransactionCount
    email := u.Email
    firstName := u.FirstName
    lastName := u.LastName }

/-- The `for i := 0; i < topN; i++` loop body (parse.go:174-191): emit
one record per user with 1-based ranks starting at `rank`. -/
def rankRows (k : Nat) (rank : Nat) : List UserMonthlySpending → List OutputRow
  | [] => []
  | u :: us => mkRow k rank u :: rankRows k (rank + 1) us

/-- The records emitted for one month (parse.go:160-191): sort the
month's users descending by `TotalGBP` (Go: `sort.Slice` with
`TotalGBP i > TotalGBP j`), truncate to the top 5, and rank them from 1. -/
def monthOutput (sp : MonthlySpendings) (k : Nat) : List OutputRow :=
  rankRows k 1
    ((sortBy (fun a b => decide (b.TotalGBP ≤ a.TotalGBP))
        ((sp.monthOf k).map Prod.snd)).take 5)

/-- The per-month output loop of `writeMonthlySpendings`
(parse.go:159-192) over an already sorted key list. -/
def writeMonths (sp : MonthlySpendings) : List Nat → List OutputRow
  | [] => []
  | k :: rest => monthOutput sp k ++ writeMonths sp rest

/-- `writeMonthlySpendings` (parse.go:141-195): sort the seen month keys
ascending (`sort.Ints`) and emit each month's ranked top-5 records.
The returned list is the sequence of data records written after the
fixed header record. -/
def writeMonthlySpendings (sp : MonthlySpendings) : List OutputRow :=
  writeMonths sp (sortBy (fun a b => decide (a ≤ b)) sp.keys)

/-- The observable outcome of one `TopSpenders` run: what was written to
the `results` writer (`none` = the writer was never invoked, zero bytes;
`some rows` = the header record followed by exactly `rows`), the
`slog.Error` diagnostics in order, and the returned `error`. -/
structure RunResult where
  written : Option (List OutputRow)
  diags : List String
  err : Option String
deriving DecidableEq, Repr

/-- `TopSpenders` (parse.go:92-139): consume the producer's stream under
the configured policy; on a stop-on-error abort return the error with
nothing written, otherwise write the aggregated report.  (The sink is
modelled as infallible, so `writeMonthlySpendings`' own error return —
possible only on sink write failure — is `nil` here.) -/
def TopSpenders (input : List ReadEvent) (cfg : Config) : RunResult :=
  let out := consume cfg (newTxStream input) [] []
  match out.err with
  | some e => ⟨none, out.diags, some e⟩
  | none => ⟨some (writeMonthlySpendings out.spendings), out.diags, none⟩

/-- The first error result of a stream, if any. -/
def firstError : List parsedTx → Option String
  | [] => none
  | Except.error e :: _ => some e
  | Except.ok _ :: rest => firstError rest

/-- The error payload of a stream item, if it is an error result. -/
def errOf : parsedTx → Option String
  | Except.error e => some e
  | Except.ok _ => none

/-- All error payloads of a stream, in order. -/
def errorsOf (s : List parsedTx) : List String :=
  s.filterMap errOf

/-- The qualifying transactions of a stream: the valid transactions that
are CARD SPEND (the only ones the aggregator does not skip). -/
def qualifying : List parsedTx → List Transaction
  | [] => []
  | Except.error _ :: rest => qualifying rest
  | Except.ok tx :: rest =>
      if tx.TransactionType = txCardSpend then tx :: qualifying rest
      else qualifying rest

/-- The emails of the qualifying transactions that fall in month `k`
(with multiplicity; `dedup` of this list counts the distinct qualifying
spenders of the month). -/
def qualEmails (s : List parsedTx) (k : Nat) : List String :=
  (qualifying s).filterMap
    (fun tx => if monthKey tx.Date = k then some tx.Email else none)

/-- The emails keyed in a month's map. -/
def MonthMap.emails (m : MonthMap) : List String :=
  m.map Prod.fst

/-- The output records of month `k`. -/
def monthRows (rows : List OutputRow) (k : Nat) : List OutputRow :=
  rows.filter (fun r => r.dateKey == k)

/-! ### Stream lemmas -/

/-- The read loop processes a run of records of the locked field count
one by one, in order. -/
theorem txLoop_map_record_append (n : Nat) (rows : List (List String))
    (evs : List ReadEvent) :
    (∀ r ∈ rows, r.length = n) →
    txLoop n (rows.map ReadEvent.record ++ evs) =
      rows.map rowResult ++ txLoop n evs := by
  induction rows with
  | nil => intro _; rfl
  | cons r rs ih =>
      intro h
      have hr := h r (List.mem_cons_self r rs)
      simp only [List.map_cons, List.cons_append, txLoop]
      rw [if_neg (by simp [hr])]
      simp only [List.append_eq]
      rw [ih (fun r2 hr2 => h r2 (List.mem_cons_of_mem r hr2))]

/-- Error results contribute no qualifying transactions, and the
qualifying transactions of concatenated streams concatenate. -/
theorem qualifying_append (l1 l2 : List parsedTx) :
    qualifying (l1 ++ l2) = qualifying l1 ++ qualifying l2 := by
  induction l1 with
  | nil => rfl
  | cons hd tl ih =>
    cases hd with
    | error e => simp [qualifying, ih]
    | ok tx =>
        simp only [List.cons_append, qualifying]
        split
        · simp [ih]
        · exact ih

/-- The first error of a stream whose prefix is error-free is the error
right after that prefix. -/
theorem firstError_append_ok (msg : String) (rest : List parsedTx) :
    ∀ s1 : List parsedTx, (∀ x ∈ s1, errOf x = none) →
      firstError (s1 ++ Except.error msg :: rest) = some msg := by
  intro s1
  induction s1 with
  | nil => intro _; rfl
  | cons hd tl ih =>
    intro h
    cases hd with
    | error e =>
        have := h (Except.error e) (List.mem_cons_self _ tl)
        simp [errOf] at this
    | ok tx =>
        simpa [firstError] using
          ih (fun x hx => h x (List.mem_cons_of_mem _ hx))

/-! ### Consumer lemmas -/

/-- Under stop-on-error policy the consumer returns the stream's first
error. -/
theorem consume_stop_err (s : List parsedTx) (e : String) :
    ∀ sp diags, firstError s = some e →
      (consume ⟨true⟩ s sp diags).err = some e := by
  induction s with
  | nil => intro sp d h; simp [firstError] at h
  | cons hd tl ih =>
    intro sp d h
    cases hd with
    | error e2 =>
        simp [firstError] at h
        simp [consume, h]
    | ok tx =>
        simp only [firstError] at h
        simp only [consume]
        split
        · exact ih _ _ h
        · exact ih _ _ h

/-- Under default policy the consumer never returns a terminal error. -/
theorem consume_default_err (s : List parsedTx) :
    ∀ sp diags, (consume ⟨false⟩ s sp diags).err = none := by
  induction s with
  | nil => intro sp d; rfl
  | cons hd tl ih =>
    intro sp d
    cases hd with
    | error e => simpa [consume] using ih _ _
    | ok tx =>
        simp only [consume]
        split
        · exact ih _ _
        · exact ih _ _

/-- Under default policy the consumer logs exactly the stream's error
results, in order. -/
theorem consume_default_diags (s : List parsedTx) :
    ∀ sp diags, (consume ⟨false⟩ s sp diags).diags = diags ++ errorsOf s := by
  induction s with
  | nil => intro sp d; simp [consume, errorsOf]
  | cons hd tl ih =>
    intro sp d
    cases hd with
    | error e => simp [consume, errorsOf, errOf, ih]
    | ok tx =>
        simp only [consume]
        split
        · simp [errorsOf, errOf, ih]
        · simp [errorsOf, errOf, ih]

/-- When the consumer finishes without a terminal error, its index is
the fold of `MonthlySpendings.apply` over the qualifying transactions. -/
theorem consume_spendings (cfg : Config) (s : List parsedTx) :
    ∀ sp diags, (consume cfg s sp diags).err = none →
      (consume cfg s sp diags).spendings =
        (qualifying s).foldl MonthlySpendings.apply sp := by
  induction s with
  | nil => intro sp d _; rfl
  | cons hd tl ih =>
    intro sp d h
    cases hd with
    | error e =>
        simp only [consume] at h ⊢
        split at h
        · simp at h
        · next hcfg =>
            simp only [if_neg hcfg]
            exact ih _ _ h
    | ok tx =>
        simp only [consume] at h ⊢
        simp only [qualifying]
        split at h
        · next htx =>
            rw [if_pos htx, if_neg (by simpa using htx)]
            exact ih _ _ h
        · next htx =>
            rw [if_neg htx, if_pos (by simpa using htx)]
            simpa using ih _ _ h

/-- When `TopSpenders` writes data rows, they are the report of the
index obtained by folding the qualifying transactions into an empty
index. -/
theorem written_some (input : List ReadEvent) (cfg : Config)
    (rows : List OutputRow)
    (h : (TopSpenders input cfg).written = some rows) :
    rows = writeMonthlySpendings
      ((qualifying (newTxStream input)).foldl MonthlySpendings.apply []) := by
  rcases herr : (consume cfg (newTxStream input) [] []).err with _ | e
  · simp only [TopSpenders, herr] at h
    simp only [Option.some.injEq] at h
    rw [← h, consume_spendings cfg _ [] [] herr]
  · simp only [TopSpenders, herr] at h
    simp at h

/-! ### Sorting lemmas -/

/-- Inserting into a list permutes consing onto it. -/
theorem perm_insertBy (le : α → α → Bool) (a : α) (l : List α) :
    List.Perm (insertBy le a l) (a :: l) := by
  induction l with
  | nil => rfl
  | cons b l ih =>
    simp only [insertBy]
    split
    · exact (ih.cons b).trans (List.Perm.swap a b l)
    · rfl

/-- The sort is a permutation of its input. -/
theorem perm_sortBy (le : α → α → Bool) (l : List α) :
    List.Perm (sortBy le l) l := by
  induction l with
  | nil => rfl
  | cons a l ih => exact (perm_insertBy le a (sortBy le l)).trans (ih.cons a)

/-- Insertion preserves sortedness, given a total transitive comparator. -/
theorem pairwise_insertBy (le : α → α → Bool)
    (htot : ∀ a b, (le a b || le b a) = true)
    (htrans : ∀ a b c, le a b = true → le b c = true → le a c = true)
    (a : α) (l : List α) (h : l.Pairwise (fun x y => le x y = true)) :
    (insertBy le a l).Pairwise (fun x y => le x y = true) := by
  induction l with
  | nil => simp [insertBy]
  | cons b l ih =>
    rcases List.pairwise_cons.1 h with ⟨hb, hl⟩
    simp only [insertBy]
    split
    · next hba =>
        refine List.pairwise_cons.2 ⟨?_, ih hl⟩
        intro x hx
        rcases List.mem_cons.1 ((perm_insertBy le a l).mem_iff.1 hx) with
          rfl | hxl
        · exact hba
        · exact hb x hxl
    · next hba =>
        have hab : le a b = true := by
          have := htot a b
          rcases Bool.or_eq_true_iff.1 this with h1 | h1
          · exact h1
          · exact absurd h1 hba
        refine List.pairwise_cons.2 ⟨?_, h⟩
        intro x hx
        rcases List.mem_cons.1 hx with rfl | hxl
        · exact hab
        · exact htrans a b x hab (hb x hxl)

/-- The sort is sorted, given a total transitive comparator. -/
theorem pairwise_sortBy (le : α → α → Bool)
    (htot : ∀ a b, (le a b || le b a) = true)
    (htrans : ∀ a b c, le a b = true → le b c = true → le a c = true)
    (l : List α) : (sortBy le l).Pairwise (fun x y => le x y = true) := by
  induction l with
  | nil => simp [sortBy]
  | cons a l ih => exact pairwise_insertBy le htot htrans a _ ih

/-! ### Ranking lemmas -/

/-- One output record per ranked user. -/
theorem rankRows_length (k : Nat) (us : List UserMonthlySpending) :
    ∀ r, (rankRows k r us).length = us.length := by
  induction us with
  | nil => intro r; rfl
  | cons u us ih => intro r; simp [rankRows, ih]

/-- The rank column of a month's records is the contiguous sequence
starting at the initial rank. -/
theorem rankRows_map_rank (k : Nat) (us : List UserMonthlySpending) :
    ∀ r, (rankRows k r us).map OutputRow.rank = List.range' r us.length := by
  induction us with
  | nil => intro r; rfl
  | cons u us ih => intro r; simp [rankRows, mkRow, List.range', ih]

/-- Every ranked record carries the month's key and one user's total. -/
theorem mem_rankRows (k : Nat) (us : List UserMonthlySpending) :
    ∀ r, ∀ row ∈ rankRows k r us,
      row.dateKey = k ∧ ∃ u ∈ us, row.amountGBP = u.TotalGBP := by
  induction us with
  | nil => intro r row h; simp [rankRows] at h
  | cons u us ih =>
    intro r row h
    rcases List.mem_cons.1 h with rfl | h2
    · exact ⟨rfl, u, List.mem_cons_self u us, rfl⟩
    · rcases ih (r + 1) row h2 with ⟨h3, v, hv, h4⟩
      exact ⟨h3, v, List.mem_cons_of_mem u hv, h4⟩

/-- Ranking preserves the descending order of the users' totals. -/
theorem rankRows_pairwise_amount (k : Nat) (us : List UserMonthlySpending)
    (h : us.Pairwise (fun a b => b.TotalGBP ≤ a.TotalGBP)) :
    ∀ r, (rankRows k r us).Pairwise
      (fun a b => b.amountGBP ≤ a.amountGBP) := by
  induction us with
  | nil => intro r; simp [rankRows]
  | cons u us ih =>
    rcases List.pairwise_cons.1 h with ⟨hu, hus⟩
    intro r
    refine List.pairwise_cons.2 ⟨?_, ih hus (r + 1)⟩
    intro row hrow
    rcases mem_rankRows k us (r + 1) row hrow with ⟨_, v, hv, h4⟩
    rw [h4]
    exact hu v hv

/-- Filtering a month's own records is the identity. -/
theorem monthRows_rankRows_self (k : Nat) (us : List UserMonthlySpending)
    (r : Nat) : monthRows (rankRows k r us) k = rankRows k r us := by
  apply List.filter_eq_self.2
  intro row hrow
  simp [(mem_rankRows k us r row hrow).1]

/-- A month's records do not show up under another month's key. -/
theorem monthRows_rankRows_ne (k k2 : Nat) (us : List UserMonthlySpending)
    (r : Nat) (h : k2 ≠ k) : monthRows (rankRows k r us) k2 = [] := by
  simp only [monthRows]
  rw [List.filter_eq_nil_iff]
  intro row hrow
  simp [(mem_rankRows k us r row hrow).1, h, Ne.symm h]

/-- Filtering one month out of a month's own output is the identity,
and out of another month's output is empty. -/
theorem monthRows_monthOutput_self (sp : MonthlySpendings) (k : Nat) :
    monthRows (monthOutput sp k) k = monthOutput sp k :=
  monthRows_rankRows_self k _ 1

theorem monthRows_monthOutput_ne (sp : MonthlySpendings) (k k2 : Nat)
    (h : k2 ≠ k) : monthRows (monthOutput sp k) k2 = [] :=
  monthRows_rankRows_ne k k2 _ 1 h

/-- Filtering distributes over concatenation of output rows. -/
theorem monthRows_append (l1 l2 : List OutputRow) (k : Nat) :
    monthRows (l1 ++ l2) k = monthRows l1 k ++ monthRows l2 k := by
  simp [monthRows, List.filter_append]

/-! ### Report lemmas -/

/-- Every record a month emits carries that month's key. -/
theorem mem_monthOutput_dateKey (sp : MonthlySpendings) (k : Nat) :
    ∀ row ∈ monthOutput sp k, row.dateKey = k := by
  intro row hrow
  exact (mem_rankRows k _ 1 row hrow).1

/-- Every record of the report belongs to one of the enumerated keys. -/
theorem mem_writeMonths_dateKey (sp : MonthlySpendings) :
    ∀ ks, ∀ row ∈ writeMonths sp ks, row.dateKey ∈ ks := by
  intro ks
  induction ks with
  | nil => intro row h; simp [writeMonths] at h
  | cons k rest ih =>
    intro row h
    rcases List.mem_append.1 h with h2 | h2
    · simp [mem_monthOutput_dateKey sp k row h2]
    · exact List.mem_cons_of_mem k (ih row h2)

/-- Records whose keys all coincide are trivially sorted by key. -/
theorem pairwise_const_key (l : List OutputRow) (k : Nat)
    (h : ∀ r ∈ l, r.dateKey = k) :
    l.Pairwise (fun a b => a.dateKey ≤ b.dateKey) := by
  induction l with
  | nil => simp
  | cons a l ih =>
    refine List.pairwise_cons.2 ⟨?_, ih fun r hr => h r (List.mem_cons_of_mem a hr)⟩
    intro b hb
    rw [h a (List.mem_cons_self a l), h b (List.mem_cons_of_mem a hb)]

/-- Emitting months over an ascending key list yields records with
ascending month keys. -/
theorem pairwise_writeMonths (sp : MonthlySpendings) (ks : List Nat)
    (hks : ks.Pairwise (· ≤ ·)) :
    (writeMonths sp ks).Pairwise (fun a b => a.dateKey ≤ b.dateKey) := by
  induction ks with
  | nil => simp [writeMonths]
  | cons k rest ih =>
    rcases List.pairwise_cons.1 hks with ⟨hk, hrest⟩
    simp only [writeMonths]
    refine List.pairwise_append.2 ⟨?_, ih hrest, ?_⟩
    · exact pairwise_const_key _ k (mem_monthOutput_dateKey sp k)
    · intro x hx y hy
      rw [mem_monthOutput_dateKey sp k x hx]
      exact hk _ (mem_writeMonths_dateKey sp rest y hy)

/-- Over a duplicate-free key list, filtering the report by a key
recovers exactly that key's month (or nothing). -/
theorem monthRows_writeMonths (sp : MonthlySpendings) (k : Nat) :
    ∀ ks, ks.Nodup →
      monthRows (writeMonths sp ks) k =
        if k ∈ ks then monthOutput sp k else [] := by
  intro ks
  induction ks with
  | nil => intro _; simp [writeMonths, monthRows]
  | cons k2 rest ih =>
    intro hnd
    rcases List.nodup_cons.1 hnd with ⟨hk2, hrest⟩
    simp only [writeMonths]
    rw [monthRows_append, ih hrest]
    by_cases hkk : k = k2
    · subst hkk
      rw [monthRows_monthOutput_self, if_neg hk2]
      simp
    · rw [monthRows_monthOutput_ne sp k2 k hkk]
      by_cases hkr : k ∈ rest
      · simp [hkr, List.mem_cons, hkk]
      · simp [hkr, List.mem_cons, hkk]

/-! ### Index lemmas -/

/-- Updating a month's map keeps the existing emails and appends the
transaction's email if it is new. -/
theorem emails_MonthMap_apply (m : MonthMap) (tx : Transaction) :
    (m.apply tx).emails =
      if tx.Email ∈ m.emails then m.emails else m.emails ++ [tx.Email] := by
  induction m with
  | nil => simp [MonthMap.apply, MonthMap.emails]
  | cons hd rest ih =>
    obtain ⟨e, us⟩ := hd
    by_cases he : e = tx.Email
    · subst he
      simp [MonthMap.apply, MonthMap.emails]
    · simp only [MonthMap.apply, if_neg he, MonthMap.emails, List.map_cons]
      by_cases hmem : tx.Email ∈ MonthMap.emails rest
      · simp only [MonthMap.emails] at hmem ih
        simp [hmem, ih, he, Ne.symm he]
      · simp only [MonthMap.emails] at hmem ih
        simp [hmem, ih, he, Ne.symm he]

/-- Updating a month's map preserves freedom from duplicate emails. -/
theorem nodup_emails_MonthMap_apply (m : MonthMap) (tx : Transaction)
    (h : m.emails.Nodup) : (m.apply tx).emails.Nodup := by
  rw [emails_MonthMap_apply]
  by_cases hmem : tx.Email ∈ m.emails
  · simpa [hmem] using h
  · simp [hmem, List.nodup_append, h]

/-- Membership in a month's emails after one update. -/
theorem mem_emails_MonthMap_apply (m : MonthMap) (tx : Transaction)
    (e : String) :
    e ∈ (m.apply tx).emails ↔ e ∈ m.emails ∨ e = tx.Email := by
  rw [emails_MonthMap_apply]
  by_cases hmem : tx.Email ∈ m.emails
  · simp only [if_pos hmem]
    constructor
    · exact Or.inl
    · rintro (h | rfl)
      · exact h
      · exact hmem
  · simp [if_neg hmem]

/-- Applying a transaction only touches the month of its date. -/
theorem monthOf_apply_ne (sp : MonthlySpendings) (tx : Transaction) (k : Nat)
    (h : k ≠ monthKey tx.Date) :
    (sp.apply tx).monthOf k = sp.monthOf k := by
  induction sp with
  | nil =>
      simp [MonthlySpendings.apply, MonthlySpendings.monthOf, Ne.symm h]
  | cons hd rest ih =>
    obtain ⟨k2, m⟩ := hd
    by_cases h2 : k2 = monthKey tx.Date
    · subst h2
      simp [MonthlySpendings.apply, MonthlySpendings.monthOf, Ne.symm h]
    · by_cases hk : k2 = k
      · subst hk
        simp [MonthlySpendings.apply, MonthlySpendings.monthOf, h2]
      · simp [MonthlySpendings.apply, MonthlySpendings.monthOf, h2, hk, ih]

/-- Applying a transaction updates exactly the month of its date. -/
theorem monthOf_apply_self (sp : MonthlySpendings) (tx : Transaction) :
    (sp.apply tx).monthOf (monthKey tx.Date) =
      (sp.monthOf (monthKey tx.Date)).apply tx := by
  induction sp with
  | nil => simp [MonthlySpendings.apply, MonthlySpendings.monthOf]
  | cons hd rest ih =>
    obtain ⟨k2, m⟩ := hd
    by_cases h2 : k2 = monthKey tx.Date
    · subst h2
      simp [MonthlySpendings.apply, MonthlySpendings.monthOf]
    · simp [MonthlySpendings.apply, MonthlySpendings.monthOf, h2, ih]

/-- Applying a transaction keeps the existing month keys and appends the
transaction's month key if it is new. -/
theorem keys_apply (sp : MonthlySpendings) (tx : Transaction) :
    (sp.apply tx).keys =
      if monthKey tx.Date ∈ sp.keys then sp.keys
      else sp.keys ++ [monthKey tx.Date] := by
  induction sp with
  | nil => simp [MonthlySpendings.apply, MonthlySpendings.keys]
  | cons hd rest ih =>
    obtain ⟨k2, m⟩ := hd
    by_cases h2 : k2 = monthKey tx.Date
    · subst h2
      simp [MonthlySpendings.apply, MonthlySpendings.keys]
    · simp only [MonthlySpendings.apply, if_neg (Ne.symm (by exact fun h => h2 h.symm) : k2 ≠ monthKey tx.Date),
        MonthlySpendings.keys, List.map_cons]
      by_cases hmem : monthKey tx.Date ∈ MonthlySpendings.keys rest
      · simp only [MonthlySpendings.keys] at hmem ih
        simp [hmem, ih, h2, Ne.symm h2]
      · simp only [MonthlySpendings.keys] at hmem ih
        simp [hmem, ih, h2, Ne.symm h2]

/-- Applying a transaction preserves freedom from duplicate month keys. -/
theorem nodup_keys_apply (sp : MonthlySpendings) (tx : Transaction)
    (h : sp.keys.Nodup) : (sp.apply tx).keys.Nodup := by
  rw [keys_apply]
  by_cases hmem : monthKey tx.Date ∈ sp.keys
  · simpa [hmem] using h
  · simp [hmem, List.nodup_append, h]

/-- Membership among the month keys after one update. -/
theorem mem_keys_apply (sp : MonthlySpendings) (tx : Transaction) (k : Nat) :
    k ∈ (sp.apply tx).keys ↔ k ∈ sp.keys ∨ k = monthKey tx.Date := by
  rw [keys_apply]
  by_cases hmem : monthKey tx.Date ∈ sp.keys
  · simp only [if_pos hmem]
    constructor
    · exact Or.inl
    · rintro (h | rfl)
      · exact h
      · exact hmem
  · simp [if_neg hmem]

/-- Membership among the month keys after folding in a transaction list. -/
theorem mem_keys_foldl (txs : List Transaction) :
    ∀ sp k, k ∈ (txs.foldl MonthlySpendings.apply sp).keys ↔
      k ∈ sp.keys ∨ ∃ tx ∈ txs, monthKey tx.Date = k := by
  induction txs with
  | nil => intro sp k; simp
  | cons tx txs ih =>
    intro sp k
    simp only [List.foldl_cons]
    rw [ih]
    rw [mem_keys_apply]
    constructor
    · rintro ((h | rfl) | ⟨tx2, h2, h3⟩)
      · exact Or.inl h
      · exact Or.inr ⟨tx, List.mem_cons_self tx txs, rfl⟩
      · exact Or.inr ⟨tx2, List.mem_cons_of_mem tx h2, h3⟩
    · rintro (h | ⟨tx2, h2, h3⟩)
      · exact Or.inl (Or.inl h)
      · rcases List.mem_cons.1 h2 with rfl | h4
        · exact Or.inl (Or.inr h3.symm)
        · exact Or.inr ⟨tx2, h4, h3⟩

/-- Folding in a transaction list preserves key dedup-freedom. -/
theorem nodup_keys_foldl (txs : List Transaction) :
    ∀ sp, sp.keys.Nodup →
      ((txs.foldl MonthlySpendings.apply sp).keys).Nodup := by
  induction txs with
  | nil => intro sp h; exact h
  | cons tx txs ih =>
    intro sp h
    exact ih _ (nodup_keys_apply sp tx h)

/-- Membership in a month's emails after one update, at the index level. -/
theorem mem_emails_apply (sp : MonthlySpendings) (tx : Transaction)
    (k : Nat) (e : String) :
    e ∈ ((sp.apply tx).monthOf k).emails ↔
      e ∈ (sp.monthOf k).emails ∨ (k = monthKey tx.Date ∧ e = tx.Email) := by
  by_cases hk : k = monthKey tx.Date
  · subst hk
    rw [monthOf_apply_self, mem_emails_MonthMap_apply]
    simp
  · rw [monthOf_apply_ne sp tx k hk]
    simp [hk]

/-- Membership in a month's emails after folding in a transaction list. -/
theorem mem_emails_foldl (txs : List Transaction) :
    ∀ sp k e, e ∈ ((txs.foldl MonthlySpendings.apply sp).monthOf k).emails ↔
      e ∈ (sp.monthOf k).emails ∨
        ∃ tx ∈ txs, monthKey tx.Date = k ∧ tx.Email = e := by
  induction txs with
  | nil => intro sp k e; simp
  | cons tx txs ih =>
    intro sp k e
    simp only [List.foldl_cons]
    rw [ih, mem_emails_apply]
    constructor
    · rintro ((h | ⟨rfl, rfl⟩) | ⟨tx2, h2, h3, h4⟩)
      · exact Or.inl h
      · exact Or.inr ⟨tx, List.mem_cons_self tx txs, rfl, rfl⟩
      · exact Or.inr ⟨tx2, List.mem_cons_of_mem tx h2, h3, h4⟩
    · rintro (h | ⟨tx2, h2, h3, h4⟩)
      · exact Or.inl (Or.inl h)
      · rcases List.mem_cons.1 h2 with rfl | h5
        · exact Or.inl (Or.inr ⟨h3.symm, h4.symm⟩)
        · exact Or.inr ⟨tx2, h5, h3, h4⟩

/-- Folding in a transaction list preserves email dedup-freedom in every
month. -/
theorem nodup_emails_foldl (txs : List Transaction) :
    ∀ sp, (∀ k, ((sp.monthOf k).emails).Nodup) →
      ∀ k, (((txs.foldl MonthlySpendings.apply sp).monthOf k).emails).Nodup := by
  induction txs with
  | nil => intro sp h; exact h
  | cons tx txs ih =>
    intro sp h
    refine ih _ ?_
    intro k
    by_cases hk : k = monthKey tx.Date
    · subst hk
      rw [monthOf_apply_self]
      exact nodup_emails_MonthMap_apply _ tx (h _)
    · rw [monthOf_apply_ne sp tx k hk]
      exact h k

/-- Membership of an email among a month's qualifying emails. -/
theorem mem_qualEmails (s : List parsedTx) (k : Nat) (e : String) :
    e ∈ qualEmails s k ↔
      ∃ tx ∈ qualifying s, monthKey tx.Date = k ∧ tx.Email = e := by
  simp only [qualEmails, List.mem_filterMap]
  constructor
  · rintro ⟨tx, htx, h⟩
    by_cases hk : monthKey tx.Date = k
    · simp only [if_pos hk, Option.some.injEq] at h
      exact ⟨tx, htx, hk, h⟩
    · simp [if_neg hk] at h
  · rintro ⟨tx, htx, hk, he⟩
    exact ⟨tx, htx, by simp [hk, he]⟩

/-- The number of users aggregated for a month equals the number of
distinct qualifying spender emails of that month in the stream. -/
theorem monthOf_length_eq_dedup (s : List parsedTx) (k : Nat) :
    (((qualifying s).foldl MonthlySpendings.apply []).monthOf k).length =
      ((qualEmails s k).dedup).length := by
  set m := ((qualifying s).foldl MonthlySpendings.apply []).monthOf k with hm
  have hnodup : m.emails.Nodup := by
    rw [hm]
    refine nodup_emails_foldl (qualifying s) [] ?_ k
    intro k2
    simp [MonthlySpendings.monthOf, MonthMap.emails]
  have hmem : ∀ e, e ∈ m.emails ↔ e ∈ (qualEmails s k).dedup := by
    intro e
    rw [List.mem_dedup, mem_qualEmails, hm, mem_emails_foldl]
    simp [MonthlySpendings.monthOf, MonthMap.emails]
  have hperm : List.Perm m.emails ((qualEmails s k).dedup) :=
    (List.perm_ext_iff_of_nodup hnodup (List.nodup_dedup _)).2 hmem
  have hlen : m.emails.length = ((qualEmails s k).dedup).length :=
    hperm.length_eq
  simpa [MonthMap.emails] using hlen

/-- A month key absent from the aggregated index has no qualifying
transactions, hence no qualifying emails. -/
theorem qualEmails_eq_nil_of_not_mem (s : List parsedTx) (k : Nat)
    (h : k ∉ ((qualifying s).foldl MonthlySpendings.apply []).keys) :
    qualEmails s k = [] := by
  rw [List.eq_nil_iff_forall_not_mem]
  intro e he
  rcases (mem_qualEmails s k e).1 he with ⟨tx, htx, hk, _⟩
  exact h ((mem_keys_foldl (qualifying s) [] k).2
    (Or.inr ⟨tx, htx, hk⟩))

/-! ### Claim C1 -/

/-- Claim C1: for every valid CARD SPEND transaction consumed by the
aggregator, the GBP contribution added to the user's monthly total is
the amount itself when the from-currency is GBP, and amount times rate
when the from-currency is GGM. -/
theorem claim_C1_conversion (us : UserMonthlySpending) (tx : Transaction)
    (hv : tx.validate = Except.ok ())
    (ht : tx.TransactionType = txCardSpend) :
    (tx.FromCurrency = currencyGBP →
      (us.update tx).TotalGBP = us.TotalGBP + tx.Amount) ∧
    (tx.FromCurrency = currencyGGM →
      (us.update tx).TotalGBP = us.TotalGBP + tx.Amount * tx.Rate) := by
  constructor <;> intro h <;>
    simp [UserMonthlySpending.update, h, currencyGBP, currencyGGM]

/-- Witness for C1 at a concrete GBP-denominated card spend. -/
theorem claim_C1_conversion_witness :
    Transaction.validate
        ⟨"A", "B", "a@b", txCardSpend, "m", 5, currencyGBP, currencyGBP, 1,
          ⟨2024, 1, 10, 12, 0⟩⟩ = Except.ok () ∧
    ((⟨"A", "B", "a@b", txCardSpend, "m", 5, currencyGBP, currencyGBP, 1,
        ⟨2024, 1, 10, 12, 0⟩⟩ : Transaction).FromCurrency = currencyGBP →
      ((⟨"A", "B", "a@b", 7, 3⟩ : UserMonthlySpending).update
          ⟨"A", "B", "a@b", txCardSpend, "m", 5, currencyGBP, currencyGBP, 1,
            ⟨2024, 1, 10, 12, 0⟩⟩).TotalGBP =
        (⟨"A", "B", "a@b", 7, 3⟩ : UserMonthlySpending).TotalGBP + 5) :=
  ⟨rfl,
    (claim_C1_conversion ⟨"A", "B", "a@b", 7, 3⟩
      ⟨"A", "B", "a@b", txCardSpend, "m", 5, currencyGBP, currencyGBP, 1,
        ⟨2024, 1, 10, 12, 0⟩⟩ rfl rfl).1⟩

/-! ### Claim C2 -/

/-- Claim C2: under stop-on-error policy, whenever the produced stream
contains an error result, the run returns the first such error and the
output writer is never invoked (zero bytes written: no header and no
data rows). -/
theorem claim_C2_stop_on_error (input : List ReadEvent) (e : String)
    (h : firstError (newTxStream input) = some e) :
    (TopSpenders input ⟨true⟩).err = some e ∧
    (TopSpenders input ⟨true⟩).written = none := by
  have he := consume_stop_err (newTxStream input) e [] [] h
  constructor <;> simp [TopSpenders, he]

/-- Witness for C2: a run over a ten-column header plus one row whose
amount does not parse (the repository's own stop-on-error test case). -/
theorem claim_C2_stop_on_error_witness :
    firstError (newTxStream [ReadEvent.record ["c1", "c2", "c3", "c4", "c5", "c6", "c7", "c8", "c9", "c10"],
      ReadEvent.record ["B", "B", "b@t", "CARD SPEND", "5013",
        "invalid_amount", "GBP", "GBP", "1", "11/01/2024 12:00"]]) =
      some badAmountMsg ∧
    (TopSpenders [ReadEvent.record ["c1", "c2", "c3", "c4", "c5", "c6", "c7", "c8", "c9", "c10"],
      ReadEvent.record ["B", "B", "b@t", "CARD SPEND", "5013",
        "invalid_amount", "GBP", "GBP", "1", "11/01/2024 12:00"]]
      ⟨true⟩).err = some badAmountMsg ∧
    (TopSpenders [ReadEvent.record ["c1", "c2", "c3", "c4", "c5", "c6", "c7", "c8", "c9", "c10"],
      ReadEvent.record ["B", "B", "b@t", "CARD SPEND", "5013",
        "invalid_amount", "GBP", "GBP", "1", "11/01/2024 12:00"]]
      ⟨true⟩).written = none :=
  ⟨by decide,
    (claim_C2_stop_on_error [ReadEvent.record ["c1", "c2", "c3", "c4", "c5", "c6", "c7", "c8", "c9", "c10"],
      ReadEvent.record ["B", "B", "b@t", "CARD SPEND", "5013",
        "invalid_amount", "GBP", "GBP", "1", "11/01/2024 12:00"]]
      badAmountMsg (by decide)).1,
    (claim_C2_stop_on_error [ReadEvent.record ["c1", "c2", "c3", "c4", "c5", "c6", "c7", "c8", "c9", "c10"],
      ReadEvent.record ["B", "B", "b@t", "CARD SPEND", "5013",
        "invalid_amount", "GBP", "GBP", "1", "11/01/2024 12:00"]]
      badAmountMsg (by decide)).2⟩

/-! ### Claim C3 -/

/-- Claim C3: consuming a valid BUY GOLD or SELL GOLD transaction is a
no-op for the aggregation — the whole remaining run (index, diagnostics
and result) is as if the transaction were not there, so no total, count
or (month, email) entry is affected. -/
theorem claim_C3_gold_frame (cfg : Config) (sp : MonthlySpendings)
    (diags : List String) (rest : List parsedTx) (tx : Transaction)
    (hv : tx.validate = Except.ok ())
    (ht : tx.TransactionType = txBuyGold ∨ tx.TransactionType = txSellGold) :
    consume cfg (Except.ok tx :: rest) sp diags =
      consume cfg rest sp diags := by
  rcases ht with h | h <;>
    simp [consume, h, txBuyGold, txSellGold, txCardSpend]

/-- Witness for C3 at a concrete valid BUY GOLD transaction. -/
theorem claim_C3_gold_frame_witness :
    Transaction.validate
        ⟨"A", "B", "a@b", txBuyGold, "m", 9, currencyGBP, currencyGGM, 2,
          ⟨2024, 1, 10, 12, 0⟩⟩ = Except.ok () ∧
    consume ⟨false⟩
        (Except.ok
          ⟨"A", "B", "a@b", txBuyGold, "m", 9, currencyGBP, currencyGGM, 2,
            ⟨2024, 1, 10, 12, 0⟩⟩ :: []) [] [] =
      consume ⟨false⟩ [] [] [] :=
  ⟨rfl,
    claim_C3_gold_frame ⟨false⟩ [] [] []
      ⟨"A", "B", "a@b", txBuyGold, "m", 9, currencyGBP, currencyGGM, 2,
        ⟨2024, 1, 10, 12, 0⟩⟩ rfl (Or.inl rfl)⟩

/-! ### Claim C5 -/

/-- Claim C5 as it stands is refuted by this run: after a ten-column
header, a nine-column row makes `csvReader.Read` return the terminal
`ErrFieldCount` error (`FieldsPerRecord` was locked to 10 by the header
read), so the producer emits one error result and closes the stream —
the following valid row is never processed, and under default policy
the run writes a report with zero data rows for it. -/
theorem claim_C5_counterexample :
    newTxStream
        [ReadEvent.record ["First name", "Last name", "Email", "Description",
           "Merchant code", "Amount", "From Currency", "To Currency", "Rate",
           "Date"],
         ReadEvent.record ["B", "B", "b@t", "CARD SPEND", "5013",
           "GBP", "GBP", "1", "11/01/2024 12:00"],
         ReadEvent.record ["C", "C", "c@t", "CARD SPEND", "5013", "200",
           "GBP", "GBP", "1", "12/01/2024 12:00"]] =
      [Except.error errFieldCountMsg] ∧
    errOf (rowResult ["C", "C", "c@t", "CARD SPEND", "5013", "200",
      "GBP", "GBP", "1", "12/01/2024 12:00"]) = none ∧
    TopSpenders
        [ReadEvent.record ["First name", "Last name", "Email", "Description",
           "Merchant code", "Amount", "From Currency", "To Currency", "Rate",
           "Date"],
         ReadEvent.record ["B", "B", "b@t", "CARD SPEND", "5013",
           "GBP", "GBP", "1", "11/01/2024 12:00"],
         ReadEvent.record ["C", "C", "c@t", "CARD SPEND", "5013", "200",
           "GBP", "GBP", "1", "12/01/2024 12:00"]] ⟨false⟩ =
      ⟨some [], [errFieldCountMsg], none⟩ :=
  ⟨rfl, by decide, by decide⟩

/-- Claim C5, amended: a data row whose field count differs from the
header's is a terminal `ErrFieldCount` read error at the csv layer: the
producer emits one error result and closes the stream, so no later row
is processed (under default policy the run still completes, logs the
error, and writes its report).  The per-row, non-fatal structural check
(fewer than 10 fields, parse.go:250-252) applies only to rows that pass
the csv layer, i.e. whose field count matches the header's: such a row
yields an error result for that row only and processing of the
following rows continues. -/
theorem claim_C5_amended (hdr bad : List String)
    (rows1 : List (List String)) (evs2 : List ReadEvent)
    (hlen1 : ∀ r ∈ rows1, r.length = hdr.length) :
    (bad.length ≠ hdr.length →
      newTxStream (ReadEvent.record hdr ::
        (rows1.map ReadEvent.record ++ ReadEvent.record bad :: evs2)) =
        rows1.map rowResult ++ [Except.error errFieldCountMsg] ∧
      errFieldCountMsg ∈ (TopSpenders (ReadEvent.record hdr ::
        (rows1.map ReadEvent.record ++ ReadEvent.record bad :: evs2))
        ⟨false⟩).diags) ∧
    (bad.length = hdr.length → bad.length < 10 →
      newTxStream (ReadEvent.record hdr ::
        (rows1.map ReadEvent.record ++ ReadEvent.record bad :: evs2)) =
        rows1.map rowResult ++
          Except.error columnCountMsg :: txLoop hdr.length evs2 ∧
      columnCountMsg ∈ (TopSpenders (ReadEvent.record hdr ::
        (rows1.map ReadEvent.record ++ ReadEvent.record bad :: evs2))
        ⟨false⟩).diags) ∧
    (TopSpenders (ReadEvent.record hdr ::
        (rows1.map ReadEvent.record ++ ReadEvent.record bad :: evs2))
      ⟨false⟩).err = none ∧
    ((TopSpenders (ReadEvent.record hdr ::
        (rows1.map ReadEvent.record ++ ReadEvent.record bad :: evs2))
      ⟨false⟩).written).isSome = true := by
  have herr := consume_default_err (newTxStream (ReadEvent.record hdr ::
        (rows1.map ReadEvent.record ++ ReadEvent.record bad :: evs2))) [] []
  refine ⟨?_, ?_, ?_, ?_⟩
  · intro hne
    have hstream : newTxStream (ReadEvent.record hdr ::
        (rows1.map ReadEvent.record ++ ReadEvent.record bad :: evs2)) =
        rows1.map rowResult ++ [Except.error errFieldCountMsg] := by
      simp only [newTxStream]
      rw [txLoop_map_record_append hdr.length rows1 _ hlen1]
      simp [txLoop, hne]
    refine ⟨hstream, ?_⟩
    simp only [TopSpenders, herr]
    rw [consume_default_diags, hstream]
    simp [errorsOf, errOf]
  · intro heq hbad
    have hrow : rowResult bad = Except.error columnCountMsg := by
      simp [rowResult, decodeRecord, if_pos hbad]
    have hstream : newTxStream (ReadEvent.record hdr ::
        (rows1.map ReadEvent.record ++ ReadEvent.record bad :: evs2)) =
        rows1.map rowResult ++
          Except.error columnCountMsg :: txLoop hdr.length evs2 := by
      simp only [newTxStream]
      rw [txLoop_map_record_append hdr.length rows1 _ hlen1]
      simp [txLoop, heq, hrow]
    refine ⟨hstream, ?_⟩
    simp only [TopSpenders, herr]
    rw [consume_default_diags, hstream]
    simp [errorsOf, errOf]
  · simp [TopSpenders, herr]
  · simp [TopSpenders, herr]

/-- Witness for the amended C5: a one-field row after a ten-column
header (terminal case) — and the run still completes under default
policy. -/
theorem claim_C5_amended_witness :
    (∀ r ∈ ([] : List (List String)),
      r.length = (["c1", "c2", "c3", "c4", "c5", "c6", "c7", "c8", "c9", "c10"] : List String).length) ∧
    (["x"] : List String).length ≠ (["c1", "c2", "c3", "c4", "c5", "c6", "c7", "c8", "c9", "c10"] : List String).length ∧
    newTxStream [ReadEvent.record ["c1", "c2", "c3", "c4", "c5", "c6", "c7", "c8", "c9", "c10"], ReadEvent.record ["x"]] =
      [Except.error errFieldCountMsg] ∧
    (TopSpenders [ReadEvent.record ["c1", "c2", "c3", "c4", "c5", "c6", "c7", "c8", "c9", "c10"], ReadEvent.record ["x"]]
      ⟨false⟩).err = none :=
  ⟨by simp, by decide,
    by
      have h := ((claim_C5_amended ["c1", "c2", "c3", "c4", "c5", "c6", "c7", "c8", "c9", "c10"] ["x"] [] []
        (by simp)).1 (by decide)).1
      simpa using h,
    (claim_C5_amended ["c1", "c2", "c3", "c4", "c5", "c6", "c7", "c8", "c9", "c10"] ["x"] [] [] (by simp)).2.2.1⟩

/-! ### Claim C6 -/

/-- Claim C6 as it stands is refuted by this run: the input fails with a
source read error after the header, yet under default policy the run
returns no terminal error and writes its (empty) report — the read
error is only a diagnostic. -/
theorem claim_C6_counterexample :
    TopSpenders [ReadEvent.record ["h"], ReadEvent.readFail "read failure"]
      ⟨false⟩ = ⟨some [], ["read failure"], none⟩ := rfl

/-- Claim C6, amended: a source read error terminates the stream — one
error result is emitted for it and no later row is processed.  Under
default policy the run then completes with no terminal error, the read
error is reported as a diagnostic, and the report written is exactly
that of the qualifying rows read before the failure.  Under
stop-on-error policy — when the rows before the failure are all valid,
so that the read error is the first error of the stream — the read
error is propagated as the terminal error and nothing is written. -/
theorem claim_C6_amended (hdr : List String) (msg : String)
    (rows1 : List (List String)) (evs2 : List ReadEvent)
    (hlen : ∀ r ∈ rows1, r.length = hdr.length) :
    newTxStream (ReadEvent.record hdr ::
        (rows1.map ReadEvent.record ++ ReadEvent.readFail msg :: evs2)) =
      rows1.map rowResult ++ [Except.error msg] ∧
    (TopSpenders (ReadEvent.record hdr ::
        (rows1.map ReadEvent.record ++ ReadEvent.readFail msg :: evs2))
      ⟨false⟩).err = none ∧
    msg ∈ (TopSpenders (ReadEvent.record hdr ::
        (rows1.map ReadEvent.record ++ ReadEvent.readFail msg :: evs2))
      ⟨false⟩).diags ∧
    (TopSpenders (ReadEvent.record hdr ::
        (rows1.map ReadEvent.record ++ ReadEvent.readFail msg :: evs2))
      ⟨false⟩).written =
      some (writeMonthlySpendings
        ((qualifying (rows1.map rowResult)).foldl
          MonthlySpendings.apply [])) ∧
    ((∀ r ∈ rows1, errOf (rowResult r) = none) →
      (TopSpenders (ReadEvent.record hdr ::
        (rows1.map ReadEvent.record ++ ReadEvent.readFail msg :: evs2))
        ⟨true⟩).err = some msg ∧
      (TopSpenders (ReadEvent.record hdr ::
        (rows1.map ReadEvent.record ++ ReadEvent.readFail msg :: evs2))
        ⟨true⟩).written = none) := by
  have hstream : newTxStream (ReadEvent.record hdr ::
        (rows1.map ReadEvent.record ++ ReadEvent.readFail msg :: evs2)) =
      rows1.map rowResult ++ [Except.error msg] := by
    simp only [newTxStream]
    rw [txLoop_map_record_append hdr.length rows1 _ hlen]
    rfl
  have herr := consume_default_err (newTxStream (ReadEvent.record hdr ::
        (rows1.map ReadEvent.record ++ ReadEvent.readFail msg :: evs2))) [] []
  refine ⟨hstream, ?_, ?_, ?_, ?_⟩
  · simp [TopSpenders, herr]
  · simp only [TopSpenders, herr]
    rw [consume_default_diags, hstream]
    simp [errorsOf, errOf]
  · simp only [TopSpenders, herr]
    rw [consume_spendings ⟨false⟩ _ [] [] herr, hstream, qualifying_append]
    simp [qualifying]
  · intro hok
    have hfe : firstError (newTxStream (ReadEvent.record hdr ::
        (rows1.map ReadEvent.record ++ ReadEvent.readFail msg :: evs2))) = some msg := by
      rw [hstream]
      exact firstError_append_ok msg [] (rows1.map rowResult)
        (by
          intro x hx
          rcases List.mem_map.1 hx with ⟨r, hr, rfl⟩
          exact hok r hr)
    have he := consume_stop_err (newTxStream (ReadEvent.record hdr ::
        (rows1.map ReadEvent.record ++ ReadEvent.readFail msg :: evs2))) msg [] [] hfe
    constructor <;> simp [TopSpenders, he]

/-- Witness for the amended C6: one valid card-spend row, then a read
failure; the default-policy run succeeds while the stop-on-error run
propagates the read error. -/
theorem claim_C6_amended_witness :
    (∀ r ∈ [["A", "A", "a@t", "CARD SPEND", "5013", "7",
        "GBP", "GBP", "1", "10/01/2024 12:00"]],
      r.length = (["c1", "c2", "c3", "c4", "c5", "c6", "c7", "c8", "c9", "c10"] : List String).length) ∧
    (∀ r ∈ [["A", "A", "a@t", "CARD SPEND", "5013", "7",
        "GBP", "GBP", "1", "10/01/2024 12:00"]],
      errOf (rowResult r) = none) ∧
    (TopSpenders (ReadEvent.record ["c1", "c2", "c3", "c4", "c5", "c6", "c7", "c8", "c9", "c10"] ::
      ([["A", "A", "a@t", "CARD SPEND", "5013", "7",
        "GBP", "GBP", "1", "10/01/2024 12:00"]].map ReadEvent.record ++
        ReadEvent.readFail "disk error" :: [])) ⟨false⟩).err = none ∧
    (TopSpenders (ReadEvent.record ["c1", "c2", "c3", "c4", "c5", "c6", "c7", "c8", "c9", "c10"] ::
      ([["A", "A", "a@t", "CARD SPEND", "5013", "7",
        "GBP", "GBP", "1", "10/01/2024 12:00"]].map ReadEvent.record ++
        ReadEvent.readFail "disk error" :: [])) ⟨true⟩).err = some "disk error" ∧
    (TopSpenders (ReadEvent.record ["c1", "c2", "c3", "c4", "c5", "c6", "c7", "c8", "c9", "c10"] ::
      ([["A", "A", "a@t", "CARD SPEND", "5013", "7",
        "GBP", "GBP", "1", "10/01/2024 12:00"]].map ReadEvent.record ++
        ReadEvent.readFail "disk error" :: [])) ⟨true⟩).written = none :=
  ⟨by decide, by decide,
    (claim_C6_amended ["c1", "c2", "c3", "c4", "c5", "c6", "c7", "c8", "c9", "c10"] "disk error"
      [["A", "A", "a@t", "CARD SPEND", "5013", "7",
        "GBP", "GBP", "1", "10/01/2024 12:00"]] []
      (by decide)).2.1,
    ((claim_C6_amended ["c1", "c2", "c3", "c4", "c5", "c6", "c7", "c8", "c9", "c10"] "disk error"
      [["A", "A", "a@t", "CARD SPEND", "5013", "7",
        "GBP", "GBP", "1", "10/01/2024 12:00"]] []
      (by decide)).2.2.2.2 (by decide)).1,
    ((claim_C6_amended ["c1", "c2", "c3", "c4", "c5", "c6", "c7", "c8", "c9", "c10"] "disk error"
      [["A", "A", "a@t", "CARD SPEND", "5013", "7",
        "GBP", "GBP", "1", "10/01/2024 12:00"]] []
      (by decide)).2.2.2.2 (by decide)).2⟩

/-! ### Claim C7 -/

/-- Claim C7 as it stands is refuted: the decoder parses signed amounts
and nothing enforces a sign, so this valid CARD SPEND transaction with
amount `-1` strictly decreases the user's total. -/
theorem claim_C7_counterexample :
    Transaction.validate
        ⟨"N", "N", "n@x", txCardSpend, "m", -1, currencyGBP, currencyGBP, 1,
          ⟨2024, 1, 10, 12, 0⟩⟩ = Except.ok () ∧
    parseFloat "-1" = some (-1) ∧
    ((⟨"N", "N", "n@x", 0, 0⟩ : UserMonthlySpending).update
        ⟨"N", "N", "n@x", txCardSpend, "m", -1, currencyGBP, currencyGBP, 1,
          ⟨2024, 1, 10, 12, 0⟩⟩).TotalGBP <
      (⟨"N", "N", "n@x", 0, 0⟩ : UserMonthlySpending).TotalGBP := by
  refine ⟨rfl, by decide, by decide⟩

/-- Claim C7, amended: the transaction count increments by exactly one
for every transaction applied to an aggregate, unconditionally; the
total never decreases provided the transaction's amount and rate are
nonnegative (the proviso is forced: signs are parsed but never
enforced, and a negative amount decreases the total). -/
theorem claim_C7_amended (us : UserMonthlySpending) (tx : Transaction)
    (hv : tx.validate = Except.ok ())
    (ht : tx.TransactionType = txCardSpend) :
    (us.update tx).TransactionCount = us.TransactionCount + 1 ∧
    (0 ≤ tx.Amount → 0 ≤ tx.Rate →
      us.TotalGBP ≤ (us.update tx).TotalGBP) := by
  constructor
  · unfold UserMonthlySpending.update
    split_ifs <;> rfl
  · intro hA hR
    have hAR : 0 ≤ tx.Amount * tx.Rate := mul_nonneg hA hR
    unfold UserMonthlySpending.update
    split_ifs <;> simp <;> linarith

/-- Witness for the amended C7 at the negative-amount card spend the
correction is about: the count clause holds there unconditionally. -/
theorem claim_C7_amended_witness :
    Transaction.validate
        ⟨"N", "N", "n@x", txCardSpend, "m", -1, currencyGBP, currencyGBP, 1,
        ⟨2024, 1, 10, 12, 0⟩⟩ = Except.ok () ∧
    (⟨"N", "N", "n@x", txCardSpend, "m", -1, currencyGBP, currencyGBP, 1,
        ⟨2024, 1, 10, 12, 0⟩⟩ : Transaction).TransactionType = txCardSpend ∧
    (((⟨"N", "N", "n@x", 5, 2⟩ : UserMonthlySpending).update
        ⟨"N", "N", "n@x", txCardSpend, "m", -1, currencyGBP, currencyGBP, 1,
        ⟨2024, 1, 10, 12, 0⟩⟩).TransactionCount =
      (⟨"N", "N", "n@x", 5, 2⟩ : UserMonthlySpending).TransactionCount + 1 ∧
     (0 ≤ (⟨"N", "N", "n@x", txCardSpend, "m", -1, currencyGBP, currencyGBP, 1,
        ⟨2024, 1, 10, 12, 0⟩⟩ : Transaction).Amount →
      0 ≤ (⟨"N", "N", "n@x", txCardSpend, "m", -1, currencyGBP, currencyGBP, 1,
        ⟨2024, 1, 10, 12, 0⟩⟩ : Transaction).Rate →
      (⟨"N", "N", "n@x", 5, 2⟩ : UserMonthlySpending).TotalGBP ≤
        ((⟨"N", "N", "n@x", 5, 2⟩ : UserMonthlySpending).update
          ⟨"N", "N", "n@x", txCardSpend, "m", -1, currencyGBP, currencyGBP, 1,
        ⟨2024, 1, 10, 12, 0⟩⟩).TotalGBP)) :=
  ⟨rfl, rfl,
    claim_C7_amended ⟨"N", "N", "n@x", 5, 2⟩
      ⟨"N", "N", "n@x", txCardSpend, "m", -1, currencyGBP, currencyGBP, 1,
        ⟨2024, 1, 10, 12, 0⟩⟩ rfl rfl⟩

/-! ### Claim C4 -/

/-- Claim C4 as it stands is refuted: two spenders with equal totals tie,
and the month's rows are then not strictly descending by amount — here
January 2024 has two rows, ranked 1 and 2, with equal amounts. -/
theorem claim_C4_counterexample :
    (monthRows ((TopSpenders
        [ReadEvent.record ["h1", "h2", "h3", "h4", "h5", "h6", "h7", "h8",
           "h9", "h10"],
         ReadEvent.record ["A", "A", "a@t", "CARD SPEND", "m", "100",
           "GBP", "GBP", "1", "10/01/2024 12:00"],
         ReadEvent.record ["B", "B", "b@t", "CARD SPEND", "m", "100",
           "GBP", "GBP", "1", "11/01/2024 12:00"]]
        ⟨false⟩).written.getD []) 202401).map OutputRow.rank = [1, 2] ∧
    ¬ (monthRows ((TopSpenders
        [ReadEvent.record ["h1", "h2", "h3", "h4", "h5", "h6", "h7", "h8",
           "h9", "h10"],
         ReadEvent.record ["A", "A", "a@t", "CARD SPEND", "m", "100",
           "GBP", "GBP", "1", "10/01/2024 12:00"],
         ReadEvent.record ["B", "B", "b@t", "CARD SPEND", "m", "100",
           "GBP", "GBP", "1", "11/01/2024 12:00"]]
        ⟨false⟩).written.getD []) 202401).Pairwise
      (fun a b => b.amountGBP < a.amountGBP) := by
  constructor
  · decide
  · decide

/-- Claim C4, amended: within every month of the output the data rows
are descending by total GBP amount (non-strictly: ties are adjacent and
ordered arbitrarily), the rank column is exactly the contiguous sequence
1..k, and k = min(5, number of distinct qualifying spenders of that
month). -/
theorem claim_C4_amended (input : List ReadEvent) (cfg : Config)
    (rows : List OutputRow) (k : Nat)
    (h : (TopSpenders input cfg).written = some rows) :
    (monthRows rows k).Pairwise (fun a b => b.amountGBP ≤ a.amountGBP) ∧
    (monthRows rows k).map OutputRow.rank =
      List.range' 1 (monthRows rows k).length ∧
    (monthRows rows k).length =
      min 5 ((qualEmails (newTxStream input) k).dedup).length := by
  have hrows := written_some input cfg rows h
  subst hrows
  have hknodup :
      ((qualifying (newTxStream input)).foldl
        MonthlySpendings.apply []).keys.Nodup :=
    nodup_keys_foldl (qualifying (newTxStream input)) []
      (by simp [MonthlySpendings.keys])
  have hperm := perm_sortBy (fun a b : Nat => decide (a ≤ b))
    ((qualifying (newTxStream input)).foldl MonthlySpendings.apply []).keys
  have hksnodup := (hperm.nodup_iff).2 hknodup
  simp only [writeMonthlySpendings]
  rw [monthRows_writeMonths _ _ _ hksnodup]
  by_cases hmem : k ∈ sortBy (fun a b : Nat => decide (a ≤ b))
      ((qualifying (newTxStream input)).foldl MonthlySpendings.apply []).keys
  · rw [if_pos hmem]
    simp only [monthOutput]
    have htotU : ∀ a b : UserMonthlySpending,
        (decide (b.TotalGBP ≤ a.TotalGBP) ||
          decide (a.TotalGBP ≤ b.TotalGBP)) = true := by
      intro a b
      rcases le_total b.TotalGBP a.TotalGBP with h1 | h1 <;> simp [h1]
    have htransU : ∀ a b c : UserMonthlySpending,
        decide (b.TotalGBP ≤ a.TotalGBP) = true →
        decide (c.TotalGBP ≤ b.TotalGBP) = true →
        decide (c.TotalGBP ≤ a.TotalGBP) = true := by
      intro a b c h1 h2
      simp only [decide_eq_true_eq] at h1 h2 ⊢
      exact le_trans h2 h1
    have hp := pairwise_sortBy
      (fun a b : UserMonthlySpending => decide (b.TotalGBP ≤ a.TotalGBP))
      htotU htransU
      ((((qualifying (newTxStream input)).foldl
        MonthlySpendings.apply []).monthOf k).map Prod.snd)
    have hp2 := hp.imp
      (fun hh => of_decide_eq_true hh)
    have hp3 := List.Pairwise.sublist (List.take_sublist 5 _) hp2
    refine ⟨rankRows_pairwise_amount k _ hp3 1, ?_, ?_⟩
    · rw [rankRows_map_rank k _ 1, rankRows_length k _ 1]
    · rw [rankRows_length k _ 1, List.length_take]
      have hlen := (perm_sortBy
        (fun a b : UserMonthlySpending => decide (b.TotalGBP ≤ a.TotalGBP))
        ((((qualifying (newTxStream input)).foldl
          MonthlySpendings.apply []).monthOf k).map Prod.snd)).length_eq
      rw [hlen, List.length_map, monthOf_length_eq_dedup]
  · rw [if_neg hmem]
    have hknotin : k ∉ ((qualifying (newTxStream input)).foldl
        MonthlySpendings.apply []).keys :=
      fun hk2 => hmem (hperm.mem_iff.2 hk2)
    refine ⟨by simp, by simp [List.range'], ?_⟩
    rw [qualEmails_eq_nil_of_not_mem (newTxStream input) k hknotin]
    simp

/-- Witness for the amended C4 on a header-only run (no data rows, no
qualifying spenders: both sides of every part are empty). -/
theorem claim_C4_amended_witness :
    (TopSpenders [ReadEvent.record ["h"]] ⟨false⟩).written = some [] ∧
    ((monthRows [] 0).Pairwise (fun a b => b.amountGBP ≤ a.amountGBP) ∧
     (monthRows [] 0).map OutputRow.rank =
       List.range' 1 (monthRows [] 0).length ∧
     (monthRows [] 0).length =
       min 5 ((qualEmails (newTxStream [ReadEvent.record ["h"]])
         0).dedup).length) :=
  ⟨rfl, claim_C4_amended [ReadEvent.record ["h"]] ⟨false⟩ [] 0 rfl⟩

/-! ### Claim C8 -/

/-- Claim C8: output rows carry ascending month keys (months appear in
chronological order), every output row's month comes from a qualifying
transaction of the input (absent months never appear), and the key
`year*100 + month` orders chronologically: it compares below another key
exactly when the (year, month) pair precedes it lexicographically (for
calendar month numbers, which are below 100). -/
theorem claim_C8_months (input : List ReadEvent) (cfg : Config)
    (rows : List OutputRow)
    (h : (TopSpenders input cfg).written = some rows) :
    rows.Pairwise (fun a b => a.dateKey ≤ b.dateKey) ∧
    (∀ r ∈ rows, ∃ tx ∈ qualifying (newTxStream input),
      monthKey tx.Date = r.dateKey) ∧
    (∀ d1 d2 : Date, d1.month < 100 → d2.month < 100 →
      (monthKey d1 < monthKey d2 ↔
        (d1.year < d2.year ∨ (d1.year = d2.year ∧ d1.month < d2.month)))) := by
  have hrows := written_some input cfg rows h
  subst hrows
  have hperm := perm_sortBy (fun a b : Nat => decide (a ≤ b))
    ((qualifying (newTxStream input)).foldl MonthlySpendings.apply []).keys
  simp only [writeMonthlySpendings]
  refine ⟨?_, ?_, ?_⟩
  · have htotN : ∀ a b : Nat,
        (decide (a ≤ b) || decide (b ≤ a)) = true := by
      intro a b
      rcases Nat.le_total a b with h1 | h1 <;> simp [h1]
    have htransN : ∀ a b c : Nat, decide (a ≤ b) = true →
        decide (b ≤ c) = true → decide (a ≤ c) = true := by
      intro a b c h1 h2
      simp only [decide_eq_true_eq] at h1 h2 ⊢
      omega
    have hp := pairwise_sortBy (fun a b : Nat => decide (a ≤ b))
      htotN htransN
      ((qualifying (newTxStream input)).foldl MonthlySpendings.apply []).keys
    exact pairwise_writeMonths _ _ (hp.imp (fun hh => of_decide_eq_true hh))
  · intro r hr
    have hk := mem_writeMonths_dateKey _ _ r hr
    have hk2 : r.dateKey ∈ ((qualifying (newTxStream input)).foldl
        MonthlySpendings.apply []).keys := hperm.mem_iff.1 hk
    rcases (mem_keys_foldl (qualifying (newTxStream input)) []
      r.dateKey).1 hk2 with h0 | htx
    · simp [MonthlySpendings.keys] at h0
    · exact htx
  · intro d1 d2 h1 h2
    unfold monthKey
    omega

/-- Witness for C8 on a header-only run. -/
theorem claim_C8_months_witness :
    (TopSpenders [ReadEvent.record ["hdr"]] ⟨false⟩).written = some [] ∧
    (([] : List OutputRow).Pairwise (fun a b => a.dateKey ≤ b.dateKey) ∧
     (∀ r ∈ ([] : List OutputRow),
       ∃ tx ∈ qualifying (newTxStream [ReadEvent.record ["hdr"]]),
         monthKey tx.Date = r.dateKey) ∧
     (∀ d1 d2 : Date, d1.month < 100 → d2.month < 100 →
       (monthKey d1 < monthKey d2 ↔
         (d1.year < d2.year ∨ (d1.year = d2.year ∧ d1.month < d2.month))))) :=
  ⟨rfl, claim_C8_months [ReadEvent.record ["hdr"]] ⟨false⟩ [] rfl⟩

/-! ### Claim C9 -/

/-- Claim C9: over any input whose data rows are all plain records of
the header's field count (the fixed well-formed format the spec
assumes; a mismatched count is the csv layer's terminal read error, see
C5), the producer yields exactly one result per row, in the input's
order, and normal exhaustion of the input ends the stream cleanly — no
terminal error result is emitted for EOF. -/
theorem claim_C9_ordering (hdr : List String) (rows : List (List String))
    (hlen : ∀ r ∈ rows, r.length = hdr.length) :
    newTxStream (ReadEvent.record hdr :: rows.map ReadEvent.record) =
      rows.map rowResult := by
  have h := txLoop_map_record_append hdr.length rows [] hlen
  simpa [newTxStream, txLoop] using h

/-- Witness for C9: a ten-column header followed by one well-formed
card-spend row. -/
theorem claim_C9_ordering_witness :
    (∀ r ∈ [["A", "A", "a@t", "CARD SPEND", "5013", "7", "GBP",
       "GBP", "1", "10/01/2024 12:00"]],
      r.length = (["c1", "c2", "c3", "c4", "c5", "c6", "c7", "c8", "c9", "c10"] : List String).length) ∧
    newTxStream (ReadEvent.record ["c1", "c2", "c3", "c4", "c5", "c6", "c7", "c8", "c9", "c10"] ::
        [["A", "A", "a@t", "CARD SPEND", "5013", "7", "GBP",
       "GBP", "1", "10/01/2024 12:00"]].map ReadEvent.record) =
      [["A", "A", "a@t", "CARD SPEND", "5013", "7", "GBP",
       "GBP", "1", "10/01/2024 12:00"]].map rowResult :=
  ⟨by decide,
    claim_C9_ordering ["c1", "c2", "c3", "c4", "c5", "c6", "c7", "c8", "c9", "c10"]
      [["A", "A", "a@t", "CARD SPEND", "5013", "7", "GBP",
       "GBP", "1", "10/01/2024 12:00"]] (by decide)⟩

/-! ### Claim C10 -/

/-- Claim C10: on completely empty input the header read hits EOF, which
the producer emits as a single error result; under stop-on-error the
run returns that error with nothing written, and under default policy
the run succeeds, logs the diagnostic, and writes only the header row
(`some []`: header written, zero data rows). -/
theorem claim_C10_empty_input :
    newTxStream [] = [Except.error eofMsg] ∧
    TopSpenders [] ⟨true⟩ = ⟨none, [], some eofMsg⟩ ∧
    TopSpenders [] ⟨false⟩ = ⟨some [], [eofMsg], none⟩ :=
  ⟨rfl, rfl, rfl⟩

end TopSpendersGo
